import Mathlib

/-!
Verification development for `elasticsearch-stress-test.py` (Python 2).

The script is embedded shallowly: every function below is a direct
translation of the source function it is named after.  Randomness
(`random.randint`, `random.choice`) is made explicit through a
deterministic oracle `Rand`; every concrete execution of the script
corresponds to some oracle value.  `sys.exit(code)` and uncaught Python
exceptions that reach the top-level handler (src lines 468-476, which
calls `sys.exit(1)`) are modelled as `Except.error code`.
-/

namespace StressTest

/-- A document, as built by the script: a Python dict from field name to
field value, modelled as an association list in insertion order. -/
abbrev Doc := List (String × String)

/-- The alphabet `string.ascii_lowercase` that `generate_random_string`
draws from. -/
def asciiLowercase : List Char :=
  ['a','b','c','d','e','f','g','h','i','j','k','l','m',
   'n','o','p','q','r','s','t','u','v','w','x','y','z']

/-- Deterministic oracle standing in for Python's `random` module: `ints`
feeds the integer draws (`randint` offsets and `choice` positions), `chars`
feeds the letter draws of `choice(string.ascii_lowercase)`.  An exhausted
stream keeps yielding 0, so the model is total; every concrete random
execution corresponds to some oracle value. -/
structure Rand where
  ints : List Nat
  chars : List Nat
deriving DecidableEq

/-- Pop the next raw integer draw. -/
def Rand.nextInt : Rand → Nat × Rand
  | ⟨[], cs⟩ => (0, ⟨[], cs⟩)
  | ⟨n :: ns, cs⟩ => (n, ⟨ns, cs⟩)

/-- One draw of `choice(string.ascii_lowercase)`: the oracle index is
reduced mod 26, so the result is always a lowercase letter. -/
def Rand.nextChar : Rand → Char × Rand
  | ⟨ns, []⟩ => ('a', ⟨ns, []⟩)
  | ⟨ns, c :: cs⟩ => (asciiLowercase.getD (c % 26) 'a', ⟨ns, cs⟩)

/-- src lines 165-171, `generate_random_int(max_size)`:
`randint(1, max_size)` raises `ValueError` for `max_size < 1`; the
`except` handler prints a message and calls `sys.exit(1)`, modelled as
`.error 1` (the process exit status).  Otherwise the result is a value in
`[1, max_size]` selected by the oracle (`o % max_size + 1` ranges over
exactly that interval). -/
def generate_random_int (max_size : Int) (r : Rand) : Except Nat (Nat × Rand) :=
  if max_size < 1 then .error 1
  else .ok (r.nextInt.1 % max_size.toNat + 1, r.nextInt.2)

/-- The character draws of `generate_random_string`: `n` independent
`choice(string.ascii_lowercase)` calls. -/
def randChars : Nat → Rand → List Char × Rand
  | 0, r => ([], r)
  | n + 1, r =>
      ((r.nextChar.1 :: (randChars n r.nextChar.2).1), (randChars n r.nextChar.2).2)

/-- src lines 174-176, `generate_random_string(max_size)`: a string of
`randint(1, max_size)` random lowercase letters. -/
def generate_random_string (max_size : Int) (r : Rand) : Except Nat (String × Rand) :=
  match generate_random_int max_size r with
  | .error e => .error e
  | .ok (len, r1) => .ok (String.mk (randChars len r1).1, (randChars len r1).2)

/-- Python dict assignment `d[k] = v`: overwrite when the key is present
(keeping its position), append a new entry otherwise. -/
def dictInsert (d : Doc) (k v : String) : Doc :=
  if d.any (fun kv => kv.1 == k) then
    d.map (fun kv => if kv.1 == k then (k, v) else kv)
  else d ++ [(k, v)]

/-- The field loop of `generate_document` (src lines 184-186), run `n`
times: each iteration inserts `temp_doc[generate_random_string(10)] =
generate_random_string(MAX_SIZE_PER_FIELD)`. -/
def genFields (max_field_size : Int) : Nat → Doc → Rand → Except Nat (Doc × Rand)
  | 0, d, r => .ok (d, r)
  | n + 1, d, r =>
      match generate_random_string 10 r with
      | .error e => .error e
      | .ok (k, r1) =>
          match generate_random_string max_field_size r1 with
          | .error e => .error e
          | .ok (v, r2) => genFields max_field_size n (dictInsert d k v) r2

/-- src lines 180-189, `generate_document()`: draw an iteration count in
`[1, MAX_FIELDS_PER_DOCUMENT]`, then run the field loop on an empty dict. -/
def generate_document (max_fields max_field_size : Int) (r : Rand) :
    Except Nat (Doc × Rand) :=
  match generate_random_int max_fields r with
  | .error e => .error e
  | .ok (n, r1) => genFields max_field_size n [] r1

/-- src lines 253-263, `generate_documents()`: `NUMBER_OF_DOCUMENTS`
template documents, in generation order. -/
def generate_documents (max_fields max_field_size : Int) :
    Nat → Rand → Except Nat (List Doc × Rand)
  | 0, r => .ok ([], r)
  | n + 1, r =>
      match generate_document max_fields max_field_size r with
      | .error e => .error e
      | .ok (d, r1) =>
          match generate_documents max_fields max_field_size n r1 with
          | .error e => .error e
          | .ok (ds, r2) => .ok (d :: ds, r2)

/-- The inner loop of `fill_documents` (src lines 203-204):
`for field in temp_doc: temp_doc[field] = generate_random_string(MAX_SIZE_PER_FIELD)`
replaces every field value of the chosen template, keeping its keys. -/
def refill (max_field_size : Int) : Doc → Rand → Except Nat (Doc × Rand)
  | [], r => .ok ([], r)
  | (k, _) :: rest, r =>
      match generate_random_string max_field_size r with
      | .error e => .error e
      | .ok (v, r1) =>
          match refill max_field_size rest r1 with
          | .error e => .error e
          | .ok (rest1, r2) => .ok ((k, v) :: rest1, r2)

/-- src lines 192-206, `fill_documents(documents_templates)`.  The
templates are modelled as a heap (`List Doc`) addressed by position,
because Python's `choice` returns a reference: the in-place value updates
of the chosen template are visible through every alias of it.  The pool
(`documents`) is the list of heap positions appended by the 10 iterations.
`choice` on an empty template list raises `IndexError`, which nothing in
the script catches before the top-level handler exits with status 1
(`.error 1`). -/
def fill_loop (max_field_size : Int) :
    Nat → List Doc → List Nat → Rand → Except Nat (List Doc × List Nat × Rand)
  | 0, heap, pool, r => .ok (heap, pool, r)
  | n + 1, heap, pool, r =>
      if heap.isEmpty then .error 1
      else
        match refill max_field_size (heap.getD (r.nextInt.1 % heap.length) []) r.nextInt.2 with
        | .error e => .error e
        | .ok (d1, r2) =>
            fill_loop max_field_size n
              (heap.set (r.nextInt.1 % heap.length) d1)
              (pool ++ [r.nextInt.1 % heap.length]) r2

/-- `fill_documents` proper: 10 iterations starting from an empty pool. -/
def fill_documents (max_field_size : Int) (heap : List Doc) (r : Rand) :
    Except Nat (List Doc × List Nat × Rand) :=
  fill_loop max_field_size 10 heap [] r

/-- Projection of `fill_documents` to (final heap, pool positions);
`none` when the run dies with an uncaught exception. -/
def fillHeapPool (max_field_size : Int) (heap : List Doc) (r : Rand) :
    Option (List Doc × List Nat) :=
  match fill_documents max_field_size heap r with
  | .ok (h, p, _) => some (h, p)
  | .error _ => none

/-- Projection of `fill_documents` to the pool it builds. -/
def fillPool (max_field_size : Int) (heap : List Doc) (r : Rand) : Option (List Nat) :=
  match fill_documents max_field_size heap r with
  | .ok (_, p, _) => some p
  | .error _ => none

/-- Projection of `generate_document` to the document it returns. -/
def genDocFields (max_fields max_field_size : Int) (r : Rand) : Option Doc :=
  match generate_document max_fields max_field_size r with
  | .ok (d, _) => some d
  | .error _ => none

/-- The three global counters (src lines 99-101) that the workers update
through `increment_success` / `increment_failure` / `increment_size`
(src lines 115-154).  Each helper takes its own lock, increments its
counter and releases the lock; for a single worker trace the net effect is
the plain update modelled here. -/
structure Stats where
  success_bulks : Nat
  failed_bulks : Nat
  total_size : Nat
deriving DecidableEq

/-- src lines 157-162, `has_timeout(STARTED_TIMESTAMP)`: returns `False`
while `STARTED_TIMESTAMP + NUMBER_OF_SECONDS > int(time.time())`, `True`
afterwards. -/
def has_timeout (number_of_seconds started_timestamp now : Nat) : Bool :=
  if started_timestamp + number_of_seconds > now then false else true

/-- Serialisation `json.dumps` of a flat string-to-string dict: the
script's documents contain only lowercase ASCII, so no escaping occurs. -/
def json_dumps_doc (d : Doc) : String :=
  "\x7b" ++ String.intercalate ", "
    (d.map (fun kv => "\"" ++ kv.1 ++ "\": \"" ++ kv.2 ++ "\"")) ++ "\x7d"

/-- src line 218, the serialised bulk action line
`json.dumps({"index": {"_index": choice(indices), "_type": "stresstest"}})`. -/
def bulk_dict_line (idx : String) : String :=
  "\x7b\"index\": \x7b\"_index\": \"" ++ idx ++ "\", \"_type\": \"stresstest\"\x7d\x7d"

/-- src lines 213-220: the batch-assembly loop of `client_worker`, which
appends `BULK_SIZE` action/document line pairs (each `json.dumps` output
followed by `"\n"`) to `curr_bulk`.  `choice` positions come from the
oracle. -/
def build_bulk (indices : List String) (pool : List Doc) : Nat → Rand → String × Rand
  | 0, r => ("", r)
  | n + 1, r =>
      (bulk_dict_line (indices.getD (r.nextInt.1 % indices.length) "") ++ "\n" ++
         json_dumps_doc (pool.getD (r.nextInt.2.nextInt.1 % pool.length) []) ++ "\n" ++
         (build_bulk indices pool n r.nextInt.2.nextInt.2).1,
       (build_bulk indices pool n r.nextInt.2.nextInt.2).2)

/-- CPython's `sys.getsizeof` on a `str` (src line 230): the object header
overhead — 37 bytes on CPython 2.7, 64-bit — plus one byte per character
(every string the script builds is ASCII). -/
def getsizeof_str (s : String) : Nat := 37 + s.length

/-- Environment of one worker-loop iteration: the wall clock and the state
of `shutdown_event` at the top-of-loop check, and whether `es.bulk`
succeeds for the batch assembled in that iteration. -/
structure EnvStep where
  now : Nat
  shutdown : Bool
  bulkOk : Bool
deriving DecidableEq

/-- src lines 209-234, `client_worker`: loop while neither `has_timeout`
nor `shutdown_event.is_set()` holds (checked at the top of each
iteration); per iteration assemble a bulk body, submit it, and on success
run `increment_success()` then `increment_size(sys.getsizeof(str(curr_bulk)))`,
on any exception run `increment_failure()` — no retry, no exit.  When
`indices` or `documents` is empty, `choice` raises `IndexError` inside the
assembly loop (outside the `try`), killing the thread before any counter
update.  The result pairs the final counters with the number of batches
submitted; the trace ends when the `steps` environment list is exhausted. -/
def client_worker (number_of_seconds started_timestamp bulk_size : Nat)
    (indices : List String) (pool : List Doc) :
    List EnvStep → Rand → Stats → Stats × Nat
  | [], _, s => (s, 0)
  | e :: rest, r, s =>
      if has_timeout number_of_seconds started_timestamp e.now || e.shutdown then (s, 0)
      else if indices.isEmpty || pool.isEmpty then (s, 0)
      else
        if e.bulkOk then
          ((client_worker number_of_seconds started_timestamp bulk_size indices pool rest
              (build_bulk indices pool bulk_size r).2
              ⟨s.success_bulks + 1, s.failed_bulks,
               s.total_size + getsizeof_str (build_bulk indices pool bulk_size r).1⟩).1,
           (client_worker number_of_seconds started_timestamp bulk_size indices pool rest
              (build_bulk indices pool bulk_size r).2
              ⟨s.success_bulks + 1, s.failed_bulks,
               s.total_size + getsizeof_str (build_bulk indices pool bulk_size r).1⟩).2 + 1)
        else
          ((client_worker number_of_seconds started_timestamp bulk_size indices pool rest
              (build_bulk indices pool bulk_size r).2
              ⟨s.success_bulks, s.failed_bulks + 1, s.total_size⟩).1,
           (client_worker number_of_seconds started_timestamp bulk_size indices pool rest
              (build_bulk indices pool bulk_size r).2
              ⟨s.success_bulks, s.failed_bulks + 1, s.total_size⟩).2 + 1)

/-- src line 308 (Python 2 integer division): `size_mb = total_size / 1024 / 1024`. -/
def size_mb (total_size : Nat) : Nat := total_size / 1024 / 1024

/-- src lines 310-314: `mbs = 0` when `elapsed_time == 0`, otherwise
`size_mb / float(elapsed_time)`. -/
def mbs (total_size elapsed_time : Nat) : ℚ :=
  if elapsed_time = 0 then 0 else (size_mb total_size : ℚ) / (elapsed_time : ℚ)

/-- src line 318: the document count printed for successful bulks,
`success_bulks * BULK_SIZE`. -/
def success_docs (success_bulks bulk_size : Nat) : Nat := success_bulks * bulk_size

/-- Observable outcome of the tail of `main` (src lines 431-465) together
with the top-level handler (src lines 468-476). -/
structure MainOutcome where
  shutdown_set : Bool
  drain_wait_completed : Bool
  interrupt_cleanup_ran : Bool
  final_stats_printed : Bool
  final_cleanup_ran : Bool
  exit_code : Nat
deriving DecidableEq

/-- The attribute lookup `c.enumerate` on src line 448, where `c` is a
`threading.Thread` instance.  Python 2.7's `Thread` class has no
`enumerate` attribute — `enumerate` is a module-level function of the
`threading` module — so the lookup raises `AttributeError`. -/
def thread_instance_enumerate : Except String (List Unit) := .error "AttributeError"

/-- src lines 431-465 plus the top-level handler (src lines 468-476),
parametrised by whether a `KeyboardInterrupt` arrives during the join
loop.  On interrupt the handler prints, sets `shutdown_event`, sleeps 2
seconds, then evaluates `c.enumerate()`; the `AttributeError` from that
call (see `thread_instance_enumerate`) propagates out of `main`, so the
wait-for-workers loop never completes, the cleanup on src line 454, the
final `print_stats` on src line 457 and the conditional cleanup on src
lines 460-463 are all skipped, and the top-level `except Exception`
handler prints a diagnostic and calls `sys.exit(1)`.  Without an
interrupt, `main` joins the workers, prints the final stats, runs cleanup
unless `--no-cleanup` was given, and the process exits with status 0. -/
def main_join_phase (interrupted no_cleanup : Bool) : MainOutcome :=
  if interrupted then
    match thread_instance_enumerate with
    | .error _ => ⟨true, false, false, false, false, 1⟩
    | .ok _ => ⟨true, true, true, true, !no_cleanup, 0⟩
  else
    ⟨false, true, false, true, !no_cleanup, 0⟩

/-! ### Helper predicates and lemmas -/

/-- A lowercase ASCII letter. -/
def isLowerChar (c : Char) : Bool := ('a' ≤ c) && (c ≤ 'z')

/-- A string made of lowercase ASCII letters only. -/
def lowerString (s : String) : Bool := s.data.all isLowerChar

/-- Well-formedness of one generated field for value bound
`max_field_size`: key of length `[1, 10]`, value of length
`[1, max_field_size]`, both lowercase. -/
def goodKV (max_field_size : Int) (kv : String × String) : Bool :=
  decide (1 ≤ kv.1.length) && decide (kv.1.length ≤ 10) && lowerString kv.1 &&
  decide (1 ≤ kv.2.length) && decide (kv.2.length ≤ max_field_size.toNat) && lowerString kv.2

theorem nextChar_lower (r : Rand) : isLowerChar r.nextChar.1 = true := by
  rcases r with ⟨ns, cs⟩
  cases cs with
  | nil => rfl
  | cons c cs =>
      have h26 : c % 26 < 26 := Nat.mod_lt _ (by norm_num)
      have hall : ∀ j, j < 26 → isLowerChar (asciiLowercase.getD j 'a') = true := by decide
      exact hall _ h26

theorem randChars_length (n : Nat) : ∀ r : Rand, (randChars n r).1.length = n := by
  induction n with
  | zero => intro r; rfl
  | succ k ih => intro r; simp [randChars, ih]

theorem randChars_lower (n : Nat) :
    ∀ (r : Rand), ∀ c ∈ (randChars n r).1, isLowerChar c = true := by
  induction n with
  | zero => intro r c hc; simp [randChars] at hc
  | succ k ih =>
      intro r c hc
      simp only [randChars, List.mem_cons] at hc
      rcases hc with rfl | hc
      · exact nextChar_lower r
      · exact ih _ _ hc

theorem generate_random_int_eq (m : Int) (r : Rand) (hm : 1 ≤ m) :
    generate_random_int m r = .ok (r.nextInt.1 % m.toNat + 1, r.nextInt.2) := by
  unfold generate_random_int
  rw [if_neg (by omega)]

theorem generate_random_int_bounds (m : Int) (r : Rand) (hm : 1 ≤ m) :
    1 ≤ r.nextInt.1 % m.toNat + 1 ∧ r.nextInt.1 % m.toNat + 1 ≤ m.toNat := by
  have h0 : 0 < m.toNat := by omega
  have := Nat.mod_lt r.nextInt.1 h0
  omega

theorem generate_random_string_ok (m : Int) (r : Rand) (hm : 1 ≤ m) :
    ∃ s r1, generate_random_string m r = .ok (s, r1) ∧
      1 ≤ s.length ∧ s.length ≤ m.toNat ∧ lowerString s = true := by
  refine ⟨String.mk (randChars (r.nextInt.1 % m.toNat + 1) r.nextInt.2).1,
         (randChars (r.nextInt.1 % m.toNat + 1) r.nextInt.2).2, ?_, ?_, ?_, ?_⟩
  · unfold generate_random_string
    rw [generate_random_int_eq m r hm]
  · have h : (String.mk (randChars (r.nextInt.1 % m.toNat + 1) r.nextInt.2).1).length
        = (randChars (r.nextInt.1 % m.toNat + 1) r.nextInt.2).1.length := rfl
    rw [h, randChars_length]
    omega
  · have h : (String.mk (randChars (r.nextInt.1 % m.toNat + 1) r.nextInt.2).1).length
        = (randChars (r.nextInt.1 % m.toNat + 1) r.nextInt.2).1.length := rfl
    rw [h, randChars_length]
    exact (generate_random_int_bounds m r hm).2
  · have h : lowerString (String.mk (randChars (r.nextInt.1 % m.toNat + 1) r.nextInt.2).1)
        = (randChars (r.nextInt.1 % m.toNat + 1) r.nextInt.2).1.all isLowerChar := rfl
    rw [h]
    exact List.all_eq_true.mpr (randChars_lower _ _)

theorem generate_random_string_error (m : Int) (r : Rand) (hm : m < 1) :
    generate_random_string m r = .error 1 := by
  unfold generate_random_string generate_random_int
  rw [if_pos hm]

theorem dictInsert_le_length (d : Doc) (k v : String) :
    d.length ≤ (dictInsert d k v).length := by
  unfold dictInsert
  split
  · simp
  · simp

theorem dictInsert_length_le (d : Doc) (k v : String) :
    (dictInsert d k v).length ≤ d.length + 1 := by
  unfold dictInsert
  split
  · simp
  · simp

theorem dictInsert_pos (d : Doc) (k v : String) : 1 ≤ (dictInsert d k v).length := by
  unfold dictInsert
  split
  · next h =>
      obtain ⟨x, hx, _⟩ := List.any_eq_true.mp h
      have hd : d ≠ [] := by rintro rfl; cases hx
      have := List.length_pos.mpr hd
      simpa using this
  · simp

theorem dictInsert_forall (P : String × String → Prop) (d : Doc) (k v : String)
    (hd : ∀ kv ∈ d, P kv) (hkv : P (k, v)) : ∀ kv ∈ dictInsert d k v, P kv := by
  unfold dictInsert
  split
  · intro kv hkv2
    obtain ⟨x, hx, hxe⟩ := List.mem_map.mp hkv2
    split at hxe
    · exact hxe ▸ hkv
    · exact hxe ▸ hd x hx
  · intro kv hkv2
    rcases List.mem_append.mp hkv2 with h | h
    · exact hd kv h
    · rcases List.mem_singleton.mp h with rfl
      exact hkv

theorem genFields_ok (mfs : Int) (hmfs : 1 ≤ mfs) :
    ∀ (n : Nat) (d : Doc) (r : Rand), (∀ kv ∈ d, goodKV mfs kv = true) →
    ∃ d1 r1, genFields mfs n d r = .ok (d1, r1) ∧
      d.length ≤ d1.length ∧ d1.length ≤ d.length + n ∧
      (1 ≤ n → 1 ≤ d1.length) ∧ ∀ kv ∈ d1, goodKV mfs kv = true := by
  intro n
  induction n with
  | zero =>
      intro d r hd
      exact ⟨d, r, rfl, le_refl _, by omega, by omega, hd⟩
  | succ k ih =>
      intro d r hd
      obtain ⟨ks, r1, hk, hk1, hk2, hk3⟩ := generate_random_string_ok 10 r (by norm_num)
      obtain ⟨vs, r2, hv, hv1, hv2, hv3⟩ := generate_random_string_ok mfs r1 hmfs
      have hgood : goodKV mfs (ks, vs) = true := by
        simp only [goodKV, Bool.and_eq_true, decide_eq_true_eq]
        exact ⟨⟨⟨⟨⟨hk1, by simpa using hk2⟩, hk3⟩, hv1⟩, hv2⟩, hv3⟩
      obtain ⟨d1, r3, hrec, hl1, hl2, _, hall⟩ := ih (dictInsert d ks vs) r2
        (dictInsert_forall _ d ks vs hd hgood)
      refine ⟨d1, r3, ?_, ?_, ?_, ?_, hall⟩
      · simp only [genFields, hk, hv]
        exact hrec
      · exact le_trans (dictInsert_le_length d ks vs) hl1
      · have h1 := dictInsert_length_le d ks vs
        omega
      · intro _
        have h1 := dictInsert_pos d ks vs
        omega

theorem generate_document_ok (mf mfs : Int) (r : Rand) (h1 : 1 ≤ mf) (h2 : 1 ≤ mfs) :
    ∃ d r1, generate_document mf mfs r = .ok (d, r1) ∧
      1 ≤ d.length ∧ d.length ≤ mf.toNat ∧ ∀ kv ∈ d, goodKV mfs kv = true := by
  obtain ⟨hn1, hn2⟩ := generate_random_int_bounds mf r h1
  obtain ⟨d1, r3, hg, _, hub, hpos, hall⟩ :=
    genFields_ok mfs h2 (r.nextInt.1 % mf.toNat + 1) [] r.nextInt.2 (by simp)
  refine ⟨d1, r3, ?_, hpos (by omega), ?_, hall⟩
  · unfold generate_document
    rw [generate_random_int_eq mf r h1]
    exact hg
  · simp only [List.length_nil, Nat.zero_add] at hub
    omega

theorem generate_document_error (mf mfs : Int) (r : Rand) (hbad : mf < 1 ∨ mfs < 1) :
    generate_document mf mfs r = .error 1 := by
  rcases hbad with hmf | hmfs
  · unfold generate_document generate_random_int
    rw [if_pos hmf]
  · by_cases hmf : mf < 1
    · unfold generate_document generate_random_int
      rw [if_pos hmf]
    · have h1 : 1 ≤ mf := by omega
      obtain ⟨ks, r1, hk, _, _, _⟩ :=
        generate_random_string_ok 10 r.nextInt.2 (by norm_num)
      unfold generate_document
      rw [generate_random_int_eq mf r h1]
      show genFields mfs (r.nextInt.1 % mf.toNat + 1) [] r.nextInt.2 = .error 1
      simp only [genFields, hk, generate_random_string_error mfs r1 hmfs]

/-! ### Claim theorems -/

/-- C4 (counterexample): the claim says the field count of a generated
document is the uniformly drawn value in `[1, maxFields]`.  On this
oracle, with `maxFields = 2` and `maxFieldSize = 1`, the draw
`randint(1, 2)` yields 2, but the two generated keys collide (`"a"` both
times) and the dict assignment overwrites, so the resulting document has
1 field, not 2. -/
theorem C4_cex :
    (generate_random_int 2 ⟨[1,0,0,0,0], [0,0,0,1]⟩).map Prod.fst = .ok 2 ∧
    (generate_document 2 1 ⟨[1,0,0,0,0], [0,0,0,1]⟩).map (fun p => p.1.length) = .ok 1 ∧
    (1 : Nat) ≠ 2 :=
  ⟨rfl, rfl, by norm_num⟩

/-- C4 (amended): for `maxFields ≥ 1` and `maxFieldSize ≥ 1`,
`generate_document` succeeds and yields a document whose field count lies
in `[1, maxFields]` (it equals the uniform draw only when the drawn keys
are distinct — duplicate keys overwrite, so the count can be smaller and
is not uniformly distributed), where every field key is a random
lowercase string of length in `[1, 10]` and every field value a random
lowercase string of length in `[1, maxFieldSize]`. -/
theorem C4_generate_document_fields (mf mfs : Int) (r : Rand)
    (h1 : 1 ≤ mf) (h2 : 1 ≤ mfs) :
    (genDocFields mf mfs r).isSome = true ∧
    1 ≤ ((genDocFields mf mfs r).getD []).length ∧
    ((genDocFields mf mfs r).getD []).length ≤ mf.toNat ∧
    ((genDocFields mf mfs r).getD []).all (goodKV mfs) = true := by
  obtain ⟨d, r1, hd, hl1, hl2, hall⟩ := generate_document_ok mf mfs r h1 h2
  have hg : genDocFields mf mfs r = some d := by
    unfold genDocFields
    rw [hd]
  rw [hg]
  exact ⟨rfl, by simpa using hl1, by simpa using hl2,
    by simpa using List.all_eq_true.mpr hall⟩

/-- Witness for `C4_generate_document_fields` at `maxFields = maxFieldSize = 1`
on the empty oracle. -/
theorem C4_generate_document_fields_w :
    (genDocFields 1 1 ⟨[], []⟩).isSome = true ∧
    1 ≤ ((genDocFields 1 1 ⟨[], []⟩).getD []).length ∧
    ((genDocFields 1 1 ⟨[], []⟩).getD []).length ≤ (1 : Int).toNat ∧
    ((genDocFields 1 1 ⟨[], []⟩).getD []).all (goodKV 1) = true :=
  C4_generate_document_fields 1 1 ⟨[], []⟩ (by norm_num) (by norm_num)

/-- C5: with `maxFields < 1` or `maxFieldSize < 1` and at least one
document to generate, document generation reports the configuration error
at the very first offending `randint` call and the process exits with
status 1, producing no documents at all (no partial results). -/
theorem C5_config_error (cnt : Nat) (mf mfs : Int) (r : Rand)
    (hcnt : 1 ≤ cnt) (hbad : mf < 1 ∨ mfs < 1) :
    generate_documents mf mfs cnt r = .error 1 := by
  obtain ⟨k, rfl⟩ : ∃ k, cnt = k + 1 := ⟨cnt - 1, by omega⟩
  simp only [generate_documents, generate_document_error mf mfs r hbad]

/-- Witness for `C5_config_error`: one document requested, `maxFields = 0`. -/
theorem C5_config_error_w : generate_documents 0 5 1 ⟨[], []⟩ = .error 1 :=
  C5_config_error 1 0 5 ⟨[], []⟩ (by norm_num) (Or.inl (by norm_num))

/-- C6: the pure stats derivation of `print_stats` on the snapshot
`{successes = 10, failures = 2, bytes = 10485760, elapsed = 5}` with
`batchSize = 1000`: `success_docs = 10 * 1000 = 10000`,
`megabytes = 10485760/1024/1024 = 10`, `MBps = 10/5 = 2`. -/
theorem C6_derive_snapshot :
    success_docs 10 1000 = 10000 ∧ size_mb 10485760 = 10 ∧ mbs 10485760 5 = 2 := by
  refine ⟨rfl, rfl, ?_⟩
  norm_num [mbs, size_mb]

/-- C7: with `elapsed = 0` the throughput is 0 for every byte-counter
value; the division is never taken (explicit guard on src lines 311-312),
so no division fault can occur. -/
theorem C7_elapsed_zero (total_size : Nat) : mbs total_size 0 = 0 := by
  simp [mbs]

/-- C1: evaluation of the `main` tail at the failing input — an external
interrupt during the run, cleanup not suppressed.  The shutdown signal is
set, but the `c.enumerate()` bug (AttributeError) aborts the handler: the
process does not finish waiting for in-flight work, runs no cleanup,
prints no final stats, and exits 1 only through the generic top-level
exception handler. -/
theorem C1_interrupt_outcome :
    (main_join_phase true false).shutdown_set = true ∧
    (main_join_phase true false).drain_wait_completed = false ∧
    (main_join_phase true false).interrupt_cleanup_ran = false ∧
    (main_join_phase true false).final_stats_printed = false ∧
    (main_join_phase true false).final_cleanup_ran = false ∧
    (main_join_phase true false).exit_code = 1 :=
  ⟨rfl, rfl, rfl, rfl, rfl, rfl⟩

/-- C2: in a worker-loop iteration where the bulk write raises (any
exception), the worker increments the failure-batch counter by exactly
one, leaves the success and byte counters unchanged, does not retry the
batch, and continues with the next loop iteration (the recursion proceeds
on the remaining trace). -/
theorem C2_failure_iteration (ns st bs : Nat) (indices : List String) (pool : List Doc)
    (e : EnvStep) (rest : List EnvStep) (r : Rand) (s : Stats)
    (hrun : (has_timeout ns st e.now || e.shutdown) = false)
    (hne : (indices.isEmpty || pool.isEmpty) = false)
    (hfail : e.bulkOk = false) :
    client_worker ns st bs indices pool (e :: rest) r s =
      ((client_worker ns st bs indices pool rest (build_bulk indices pool bs r).2
          ⟨s.success_bulks, s.failed_bulks + 1, s.total_size⟩).1,
       (client_worker ns st bs indices pool rest (build_bulk indices pool bs r).2
          ⟨s.success_bulks, s.failed_bulks + 1, s.total_size⟩).2 + 1) := by
  simp [client_worker, hrun, hne, hfail]

/-- Witness for `C2_failure_iteration`: a one-iteration trace whose bulk
write fails. -/
theorem C2_failure_iteration_w :
    client_worker 10 0 1 ["i"] [[("a", "b")]] [⟨0, false, false⟩] ⟨[0, 0], []⟩ ⟨0, 0, 0⟩ =
      ((client_worker 10 0 1 ["i"] [[("a", "b")]] []
          (build_bulk ["i"] [[("a", "b")]] 1 ⟨[0, 0], []⟩).2
          ⟨(0 : Nat), (0 : Nat) + 1, (0 : Nat)⟩).1,
       (client_worker 10 0 1 ["i"] [[("a", "b")]] []
          (build_bulk ["i"] [[("a", "b")]] 1 ⟨[0, 0], []⟩).2
          ⟨(0 : Nat), (0 : Nat) + 1, (0 : Nat)⟩).2 + 1) :=
  C2_failure_iteration 10 0 1 ["i"] [[("a", "b")]] ⟨0, false, false⟩ [] ⟨[0, 0], []⟩
    ⟨0, 0, 0⟩ (by decide) (by decide) (by decide)

/-- C3: the worker evaluates the stop condition (deadline passed or
shutdown signal set) at the top of every iteration, so the number of
batches it submits equals the number of trace steps strictly before the
first step at which the condition holds: no batch is assembled or
submitted at or after that step, and the batch in flight when the signal
arrives is the one completed in the previous step. -/
theorem C3_stop_check (ns st bs : Nat) (indices : List String) (pool : List Doc)
    (hne : (indices.isEmpty || pool.isEmpty) = false) :
    ∀ (steps : List EnvStep) (r : Rand) (s : Stats),
      (client_worker ns st bs indices pool steps r s).2 =
        (steps.takeWhile fun e => !(has_timeout ns st e.now || e.shutdown)).length := by
  intro steps
  induction steps with
  | nil =>
      intro r s
      simp [client_worker]
  | cons e rest ih =>
      intro r s
      cases hstop : (has_timeout ns st e.now || e.shutdown) with
      | true => simp [client_worker, hstop, List.takeWhile]
      | false =>
          cases hbo : e.bulkOk with
          | true => simp [client_worker, hstop, hne, hbo, List.takeWhile, ih]
          | false => simp [client_worker, hstop, hne, hbo, List.takeWhile, ih]

/-- Witness for `C3_stop_check`: the second trace step passes the
deadline (`now = 99 ≥ 0 + 10`), so exactly one batch is submitted. -/
theorem C3_stop_check_w :
    (client_worker 10 0 1 ["i"] [[("a", "b")]]
        [⟨0, false, true⟩, ⟨99, false, true⟩, ⟨100, false, true⟩] ⟨[], []⟩ ⟨0, 0, 0⟩).2 =
      (([⟨0, false, true⟩, ⟨99, false, true⟩, ⟨100, false, true⟩] : List EnvStep).takeWhile
        fun e => !(has_timeout 10 0 e.now || e.shutdown)).length :=
  C3_stop_check 10 0 1 ["i"] [[("a", "b")]] (by decide)
    [⟨0, false, true⟩, ⟨99, false, true⟩, ⟨100, false, true⟩] ⟨[], []⟩ ⟨0, 0, 0⟩

/-- C9 (counterexample): the claim says a successful iteration increases
the byte counter by exactly the serialized byte size of the submitted
batch body.  On this concrete one-iteration trace the counter increases
by `sys.getsizeof(str(curr_bulk))` — the CPython object size, 37 bytes of
header plus the payload — which differs from the body's serialized
length. -/
theorem C9_cex :
    (client_worker 10 0 1 ["i"] [[("a", "b")]] [⟨0, false, true⟩]
        ⟨[0, 0], []⟩ ⟨0, 0, 0⟩).1.total_size ≠
      (build_bulk ["i"] [[("a", "b")]] 1 ⟨[0, 0], []⟩).1.length := by
  decide

/-- C9 (amended): in a worker-loop iteration where the bulk write
succeeds, the worker increments the success-batch counter by exactly one
and increases the byte counter by exactly `sys.getsizeof` of the
submitted batch body — the serialized length plus the constant CPython
string-object overhead — which is strictly greater than the serialized
byte size. -/
theorem C9_success_iteration (ns st bs : Nat) (indices : List String) (pool : List Doc)
    (e : EnvStep) (rest : List EnvStep) (r : Rand) (s : Stats)
    (hrun : (has_timeout ns st e.now || e.shutdown) = false)
    (hne : (indices.isEmpty || pool.isEmpty) = false)
    (hok : e.bulkOk = true) :
    client_worker ns st bs indices pool (e :: rest) r s =
      ((client_worker ns st bs indices pool rest (build_bulk indices pool bs r).2
          ⟨s.success_bulks + 1, s.failed_bulks,
           s.total_size + getsizeof_str (build_bulk indices pool bs r).1⟩).1,
       (client_worker ns st bs indices pool rest (build_bulk indices pool bs r).2
          ⟨s.success_bulks + 1, s.failed_bulks,
           s.total_size + getsizeof_str (build_bulk indices pool bs r).1⟩).2 + 1) ∧
    (build_bulk indices pool bs r).1.length <
      getsizeof_str (build_bulk indices pool bs r).1 := by
  constructor
  · simp [client_worker, hrun, hne, hok]
  · simp only [getsizeof_str]
    omega

/-- Witness for `C9_success_iteration`: a one-iteration trace whose bulk
write succeeds. -/
theorem C9_success_iteration_w :
    (client_worker 10 0 1 ["i"] [[("a", "b")]] [⟨0, false, true⟩] ⟨[0, 0], []⟩ ⟨0, 0, 0⟩ =
      ((client_worker 10 0 1 ["i"] [[("a", "b")]] []
          (build_bulk ["i"] [[("a", "b")]] 1 ⟨[0, 0], []⟩).2
          ⟨(0 : Nat) + 1, (0 : Nat),
           (0 : Nat) + getsizeof_str (build_bulk ["i"] [[("a", "b")]] 1 ⟨[0, 0], []⟩).1⟩).1,
       (client_worker 10 0 1 ["i"] [[("a", "b")]] []
          (build_bulk ["i"] [[("a", "b")]] 1 ⟨[0, 0], []⟩).2
          ⟨(0 : Nat) + 1, (0 : Nat),
           (0 : Nat) + getsizeof_str (build_bulk ["i"] [[("a", "b")]] 1 ⟨[0, 0], []⟩).1⟩).2 + 1)) ∧
    (build_bulk ["i"] [[("a", "b")]] 1 ⟨[0, 0], []⟩).1.length <
      getsizeof_str (build_bulk ["i"] [[("a", "b")]] 1 ⟨[0, 0], []⟩).1 :=
  C9_success_iteration 10 0 1 ["i"] [[("a", "b")]] ⟨0, false, true⟩ [] ⟨[0, 0], []⟩
    ⟨0, 0, 0⟩ (by decide) (by decide) (by decide)

/-! ### Lemmas about the pool-filling step -/

theorem list_map_set {α β : Type} (f : α → β) :
    ∀ (l : List α) (i : Nat) (a : α), (l.set i a).map f = (l.map f).set i (f a)
  | [], _, _ => rfl
  | _ :: _, 0, _ => rfl
  | x :: xs, i + 1, a => by simp [List.set, list_map_set f xs i a]

theorem list_set_getD_self {α : Type} (d : α) :
    ∀ (l : List α) (i : Nat), i < l.length → l.set i (l.getD i d) = l
  | [], i, h => absurd h (by simp)
  | _ :: _, 0, _ => rfl
  | x :: xs, i + 1, h =>
      congrArg (x :: ·) (list_set_getD_self d xs i (by simpa using h))

theorem list_getD_map {α β : Type} (f : α → β) (d : α) :
    ∀ (l : List α) (i : Nat), (l.map f).getD i (f d) = f (l.getD i d)
  | [], _ => rfl
  | _ :: _, 0 => rfl
  | _ :: xs, i + 1 => list_getD_map f d xs i

/-- The key list of a document, in insertion order. -/
def keysOf (d : Doc) : List String := d.map Prod.fst

theorem refill_keys (mfs : Int) :
    ∀ (d d1 : Doc) (r r1 : Rand), refill mfs d r = .ok (d1, r1) →
      keysOf d1 = keysOf d := by
  intro d
  induction d with
  | nil =>
      intro d1 r r1 h
      simp only [refill, Except.ok.injEq, Prod.mk.injEq] at h
      obtain ⟨h1, _⟩ := h
      subst h1
      rfl
  | cons kv rest ih =>
      obtain ⟨k, v0⟩ := kv
      intro d1 r r1 h
      simp only [refill] at h
      cases hg : generate_random_string mfs r with
      | error e => simp [hg] at h
      | ok p =>
          obtain ⟨v, r2⟩ := p
          simp only [hg] at h
          cases hr : refill mfs rest r2 with
          | error e => simp [hr] at h
          | ok q =>
              obtain ⟨rest1, r3⟩ := q
              simp only [hr, Except.ok.injEq, Prod.mk.injEq] at h
              obtain ⟨h1, _⟩ := h
              subst h1
              have hih := ih rest1 r2 r3 hr
              simp only [keysOf, List.map_cons] at hih ⊢
              rw [hih]

theorem refill_ok (mfs : Int) (hmfs : 1 ≤ mfs) :
    ∀ (d : Doc) (r : Rand), ∃ d1 r1, refill mfs d r = .ok (d1, r1) := by
  intro d
  induction d with
  | nil => intro r; exact ⟨[], r, rfl⟩
  | cons kv rest ih =>
      obtain ⟨k, v0⟩ := kv
      intro r
      obtain ⟨v, r1, hv, _, _, _⟩ := generate_random_string_ok mfs r hmfs
      obtain ⟨rest1, r2, hr⟩ := ih r1
      exact ⟨(k, v) :: rest1, r2, by simp [refill, hv, hr]⟩

theorem fill_loop_keys (mfs : Int) :
    ∀ (n : Nat) (heap : List Doc) (pool : List Nat) (r : Rand)
      (h1 : List Doc) (p1 : List Nat) (r1 : Rand),
      fill_loop mfs n heap pool r = .ok (h1, p1, r1) →
      h1.map keysOf = heap.map keysOf := by
  intro n
  induction n with
  | zero =>
      intro heap pool r h1 p1 r1 h
      simp only [fill_loop, Except.ok.injEq, Prod.mk.injEq] at h
      obtain ⟨ha, _, _⟩ := h
      subst ha
      rfl
  | succ k ih =>
      intro heap pool r h1 p1 r1 h
      simp only [fill_loop] at h
      cases he : heap.isEmpty with
      | true => simp [he] at h
      | false =>
          simp only [he, Bool.false_eq_true, if_false] at h
          generalize hi : r.nextInt.1 % heap.length = i at h
          have hlen : i < heap.length := by
            rcases heap with _ | ⟨x, xs⟩
            · simp at he
            · rw [← hi]
              exact Nat.mod_lt _ (by simp)
          split at h
          next e heq => exact absurd h (by simp)
          next d1 r2 heq =>
              have hk := ih (heap.set i d1) (pool ++ [i]) r2 h1 p1 r1 h
              have hkeys : keysOf d1 = keysOf (heap.getD i []) :=
                refill_keys mfs _ _ _ _ heq
              rw [hk, list_map_set]
              have h3 : keysOf d1 = (heap.map keysOf).getD i [] := by
                rw [hkeys]
                have h4 := list_getD_map keysOf ([] : Doc) heap i
                rw [show keysOf ([] : Doc) = [] from rfl] at h4
                exact h4.symm
              rw [h3]
              exact list_set_getD_self ([] : List String) (heap.map keysOf) i
                (by simpa using hlen)

theorem fill_loop_ok (mfs : Int) (hmfs : 1 ≤ mfs) :
    ∀ (n : Nat) (heap : List Doc) (pool : List Nat) (r : Rand), heap ≠ [] →
      ∃ h1 p1 r1, fill_loop mfs n heap pool r = .ok (h1, p1, r1) ∧
        p1.length = pool.length + n ∧ ∀ i ∈ p1, i ∈ pool ∨ i < heap.length := by
  intro n
  induction n with
  | zero =>
      intro heap pool r hne
      exact ⟨heap, pool, r, rfl, by omega, fun i hi => Or.inl hi⟩
  | succ k ih =>
      intro heap pool r hne
      have hemp : heap.isEmpty = false := by
        rcases heap with _ | ⟨x, xs⟩
        · cases hne rfl
        · rfl
      have hpos : 0 < heap.length := by
        rcases heap with _ | ⟨x, xs⟩
        · cases hne rfl
        · simp
      have hlen : r.nextInt.1 % heap.length < heap.length := Nat.mod_lt _ hpos
      obtain ⟨d1, r2, hr⟩ :=
        refill_ok mfs hmfs (heap.getD (r.nextInt.1 % heap.length) []) r.nextInt.2
      have hne2 : heap.set (r.nextInt.1 % heap.length) d1 ≠ [] := by
        apply List.ne_nil_of_length_pos
        rw [List.length_set]
        exact hpos
      obtain ⟨h1, p1, r1, hfl, hplen, hmem⟩ :=
        ih (heap.set (r.nextInt.1 % heap.length) d1)
          (pool ++ [r.nextInt.1 % heap.length]) r2 hne2
      refine ⟨h1, p1, r1, ?_, ?_, ?_⟩
      · simp only [fill_loop, hemp, Bool.false_eq_true, if_false, hr]
        exact hfl
      · rw [hplen]
        simp
        omega
      · intro i hi
        rcases hmem i hi with hin | hlt
        · rcases List.mem_append.mp hin with hmem2 | hmem2
          · exact Or.inl hmem2
          · rcases List.mem_singleton.mp hmem2 with rfl
            exact Or.inr hlen
        · right
          rw [List.length_set] at hlt
          exact hlt

/-- C8 (counterexample): the claim says documents are immutable once
generated and the pool is never mutated.  On this oracle, the single
template is generated as `[("a", "b")]`; pool filling mutates it in place
— after the first of the 10 iterations the pool already holds a reference
to it with value `"c"`, and by the end the same referenced document reads
`"l"` — so a document instance already generated and already placed in
the pool had its field value changed. -/
theorem C8_cex :
    generate_documents 1 1 1 ⟨[0, 0, 0], [0, 1]⟩ = .ok ([[("a", "b")]], ⟨[], []⟩) ∧
    (fill_loop 1 1 [[("a", "b")]] [] ⟨List.replicate 20 0, [2, 3, 4, 5, 6, 7, 8, 9, 10, 11]⟩).map
      (fun t => (t.1, t.2.1)) = .ok ([[("a", "c")]], [0]) ∧
    fillHeapPool 1 [[("a", "b")]] ⟨List.replicate 20 0, [2, 3, 4, 5, 6, 7, 8, 9, 10, 11]⟩ =
      some ([[("a", "l")]], [0, 0, 0, 0, 0, 0, 0, 0, 0, 0]) ∧
    ([[("a", "l")]] : List Doc) ≠ [[("a", "b")]] ∧ ("c" : String) ≠ "l" :=
  ⟨rfl, rfl, rfl, by decide, by decide⟩

/-- C8 (amended): documents are not immutable after generation — each
pool-filling iteration re-randomizes, in place, all field values of the
template it picks, and pool entries alias the templates, so entries
already in the pool can change value.  What is preserved is the shape:
for every successful run of `fill_documents` the key list of every heap
document is exactly what it was before the fill, only the values differ. -/
theorem C8_fill_preserves_keys (mfs : Int) (heap : List Doc) (r : Rand)
    (h1 : List Doc) (p1 : List Nat) (r1 : Rand)
    (h : fill_documents mfs heap r = .ok (h1, p1, r1)) :
    h1.map keysOf = heap.map keysOf :=
  fill_loop_keys mfs 10 heap [] r h1 p1 r1 h

/-- Witness for `C8_fill_preserves_keys` on the concrete run that mutates
the template from `[("a", "b")]` to `[("a", "l")]`. -/
theorem C8_fill_preserves_keys_w :
    ([[("a", "l")]] : List Doc).map keysOf = ([[("a", "b")]] : List Doc).map keysOf :=
  C8_fill_preserves_keys 1 [[("a", "b")]] ⟨List.replicate 20 0, [2, 3, 4, 5, 6, 7, 8, 9, 10, 11]⟩
    [[("a", "l")]] [0, 0, 0, 0, 0, 0, 0, 0, 0, 0] ⟨[], []⟩ rfl

/-- C10 (counterexample): the claim says the pool receives exactly 10
entries per endpoint regardless of the configured document count.  With
`--documents 0` the template list is empty, the first `choice` in
`fill_documents` raises `IndexError`, the process dies through the
top-level handler, and the pool receives no entries. -/
theorem C10_cex : fillPool 1000 [] ⟨[], []⟩ = none := rfl

/-- C10 (amended): provided at least one base document is configured (and
`maxFieldSize ≥ 1`), the pool receives exactly 10 entries per endpoint
regardless of the configured document count: each entry is a reference
(heap position) to one of the templates, chosen with replacement — so the
pool may contain fewer than 10 distinct instances — and the chosen
template's values are re-randomized in place; the templates are only
shape donors, the configured count never enters the pool. -/
theorem C10_pool_ten_refs (mfs : Int) (heap : List Doc) (r : Rand)
    (hne : heap ≠ []) (hmfs : 1 ≤ mfs) :
    (fillPool mfs heap r).isSome = true ∧
    ((fillPool mfs heap r).getD []).length = 10 ∧
    (((fillPool mfs heap r).getD []).all fun i => decide (i < heap.length)) = true := by
  obtain ⟨h1, p1, r1, hfl, hplen, hmem⟩ := fill_loop_ok mfs hmfs 10 heap [] r hne
  have hp : fillPool mfs heap r = some p1 := by
    unfold fillPool fill_documents
    rw [hfl]
  rw [hp]
  refine ⟨rfl, by simpa using hplen, ?_⟩
  simp only [Option.getD_some, List.all_eq_true, decide_eq_true_eq]
  intro i hi
  rcases hmem i hi with hin | hlt
  · cases hin
  · exact hlt

/-- Witness for `C10_pool_ten_refs` on a one-template heap. -/
theorem C10_pool_ten_refs_w :
    (fillPool 1 [[("a", "b")]] ⟨List.replicate 20 0, [2, 3, 4, 5, 6, 7, 8, 9, 10, 11]⟩).isSome = true ∧
    ((fillPool 1 [[("a", "b")]] ⟨List.replicate 20 0, [2, 3, 4, 5, 6, 7, 8, 9, 10, 11]⟩).getD []).length = 10 ∧
    (((fillPool 1 [[("a", "b")]] ⟨List.replicate 20 0, [2, 3, 4, 5, 6, 7, 8, 9, 10, 11]⟩).getD []).all
      fun i => decide (i < ([[("a", "b")]] : List Doc).length)) = true :=
  C10_pool_ten_refs 1 [[("a", "b")]] ⟨List.replicate 20 0, [2, 3, 4, 5, 6, 7, 8, 9, 10, 11]⟩
    (by simp) (by norm_num)

end StressTest
